import Mathlib

/-!
Verification of the diffusion kurtosis (DKI) module `dipy/reconst/dki.py`.

Real-valued NumPy code is modelled by functions over `ℝ`; per-voxel array
code is modelled at the single-voxel (scalar) level.  External collaborators
(eigen-decomposition, the Cython `local_maxima`, the BFGS minimizer) are
abstracted as function parameters, so every theorem quantifies over all
possible behaviours of those externals.
-/

open Classical

noncomputable section

/-- State of the Carlson duplication loop: the running triplet `(xn, yn, zn)`
and the running mean `An` (`carlson_rf` / `carlson_rd`, dki.py). -/
structure CState where
  x : ℝ
  y : ℝ
  z : ℝ
  A : ℝ

/-- `lamda = sqrt(xn)*(sqrt(yn)+sqrt(zn)) + sqrt(yn)*sqrt(zn)` computed each
iteration of the duplication loops in `carlson_rf` and `carlson_rd`. -/
def clamda (s : CState) : ℝ :=
  Real.sqrt s.x * (Real.sqrt s.y + Real.sqrt s.z) + Real.sqrt s.y * Real.sqrt s.z

/-- One iteration of the Carlson duplication loop body (shared verbatim by
`carlson_rf` and `carlson_rd`): every component is updated to `(· + lamda)/4`. -/
def carlson_step (s : CState) : CState :=
  let l := clamda s
  ⟨(s.x + l) / 4, (s.y + l) / 4, (s.z + l) / 4, (s.A + l) / 4⟩

/-- The guard of the `while` loop after `n` iterations:
`4.0 ** (-n) * Q > abs(An)`. -/
def carlson_loop_continues (Q : ℝ) (s0 : CState) (n : ℕ) : Prop :=
  (4 : ℝ) ^ (-(n : ℤ)) * Q > |((carlson_step)^[n] s0).A|

/-- Number of iterations the duplication loop performs: the least `n` at which
the guard fails (junk value `0` when the loop never exits, which happens only
outside the documented input domain). -/
def carlson_iters (Q : ℝ) (s0 : CState) : ℕ :=
  sInf {n | ¬ carlson_loop_continues Q s0 n}

/-- Initial state of the `carlson_rf` loop: `An = (x + y + z)/3`. -/
def carlson_rf_init (x y z : ℝ) : CState :=
  ⟨x, y, z, (x + y + z) / 3⟩

/-- Convergence threshold of `carlson_rf`:
`Q = (3*errtol)**(-1/6) * max(|An-x|, |An-y|, |An-z|)`. -/
def carlson_rf_Q (x y z errtol : ℝ) : ℝ :=
  (3 * errtol) ^ (-(1 / 6 : ℝ)) *
    max |(carlson_rf_init x y z).A - x|
      (max |(carlson_rf_init x y z).A - y| |(carlson_rf_init x y z).A - z|)

/-- `carlson_rf(x, y, z, errtol)` (dki.py): duplication loop followed by the
fixed 5-term truncated series in the normalized deviations. -/
def carlson_rf (x y z errtol : ℝ) : ℝ :=
  let s0 := carlson_rf_init x y z
  let Q := carlson_rf_Q x y z errtol
  let sF := (carlson_step)^[carlson_iters Q s0] s0
  let X := 1 - sF.x / sF.A
  let Y := 1 - sF.y / sF.A
  let Z := -X - Y
  let E2 := X * Y - Z * Z
  let E3 := X * Y * Z
  sF.A ^ (-(1 / 2 : ℝ)) *
    (1 - E2 / 10 + E3 / 14 + E2 ^ 2 / 24 - 3 / 44 * E2 * E3)

/-- Initial state of the `carlson_rd` loop: `A0 = (x + y + 3z)/5`. -/
def carlson_rd_init (x y z : ℝ) : CState :=
  ⟨x, y, z, (x + y + 3 * z) / 5⟩

/-- Convergence threshold of `carlson_rd`:
`Q = (errtol/4)**(-1/6) * max(|An-x|, |An-y|, |An-z|)`. -/
def carlson_rd_Q (x y z errtol : ℝ) : ℝ :=
  (errtol / 4) ^ (-(1 / 6 : ℝ)) *
    max |(carlson_rd_init x y z).A - x|
      (max |(carlson_rd_init x y z).A - y| |(carlson_rd_init x y z).A - z|)

/-- The running correction `sum_term` of `carlson_rd` after `n` iterations:
each iteration adds `4**(-n) / (znroot * (zn + lamda))` before updating. -/
def carlson_rd_sum (s0 : CState) : ℕ → ℝ
  | 0 => 0
  | n + 1 =>
    carlson_rd_sum s0 n +
      (4 : ℝ) ^ (-(n : ℤ)) /
        (Real.sqrt ((carlson_step)^[n] s0).z *
          (((carlson_step)^[n] s0).z + clamda ((carlson_step)^[n] s0)))

/-- `carlson_rd(x, y, z, errtol)` (dki.py): duplication loop with running
correction term, followed by the fixed 7-term truncated series. -/
def carlson_rd (x y z errtol : ℝ) : ℝ :=
  let s0 := carlson_rd_init x y z
  let Q := carlson_rd_Q x y z errtol
  let N := carlson_iters Q s0
  let sF := (carlson_step)^[N] s0
  let X := (s0.A - x) / ((4 : ℝ) ^ N * sF.A)
  let Y := (s0.A - y) / ((4 : ℝ) ^ N * sF.A)
  let Z := -(X + Y) / 3
  let E2 := X * Y - 6 * Z * Z
  let E3 := (3 * X * Y - 8 * Z * Z) * Z
  let E4 := 3 * (X * Y - Z * Z) * Z ^ 2
  let E5 := X * Y * Z ^ 3
  (4 : ℝ) ^ (-(N : ℤ)) * sF.A ^ (-(3 / 2 : ℝ)) *
      (1 - 3 / 14 * E2 + 1 / 6 * E3 + 9 / 88 * E2 ^ 2 - 3 / 22 * E4 -
        9 / 52 * E2 * E3 + 3 / 26 * E5) +
    3 * carlson_rd_sum s0 N

/-- Componentwise lower bound `m` on a Carlson state. -/
def cstate_ge (m : ℝ) (s : CState) : Prop :=
  m ≤ s.x ∧ m ≤ s.y ∧ m ≤ s.z ∧ m ≤ s.A

lemma clamda_ge (m : ℝ) (hm : 0 ≤ m) (s : CState) (h : cstate_ge m s) :
    3 * m ≤ clamda s := by
  obtain ⟨hx, hy, hz, -⟩ := h
  have hsm : Real.sqrt m * Real.sqrt m = m := Real.mul_self_sqrt hm
  have hxm : Real.sqrt m ≤ Real.sqrt s.x := Real.sqrt_le_sqrt hx
  have hym : Real.sqrt m ≤ Real.sqrt s.y := Real.sqrt_le_sqrt hy
  have hzm : Real.sqrt m ≤ Real.sqrt s.z := Real.sqrt_le_sqrt hz
  have h0 : 0 ≤ Real.sqrt m := Real.sqrt_nonneg m
  have hxy : m ≤ Real.sqrt s.x * Real.sqrt s.y := by
    calc m = Real.sqrt m * Real.sqrt m := hsm.symm
    _ ≤ Real.sqrt s.x * Real.sqrt s.y :=
      mul_le_mul hxm hym h0 (Real.sqrt_nonneg _)
  have hxz : m ≤ Real.sqrt s.x * Real.sqrt s.z := by
    calc m = Real.sqrt m * Real.sqrt m := hsm.symm
    _ ≤ Real.sqrt s.x * Real.sqrt s.z :=
      mul_le_mul hxm hzm h0 (Real.sqrt_nonneg _)
  have hyz : m ≤ Real.sqrt s.y * Real.sqrt s.z := by
    calc m = Real.sqrt m * Real.sqrt m := hsm.symm
    _ ≤ Real.sqrt s.y * Real.sqrt s.z :=
      mul_le_mul hym hzm h0 (Real.sqrt_nonneg _)
  unfold clamda
  nlinarith [hxy, hxz, hyz]

lemma carlson_step_ge (m : ℝ) (hm : 0 ≤ m) (s : CState) (h : cstate_ge m s) :
    cstate_ge m (carlson_step s) := by
  have hl := clamda_ge m hm s h
  obtain ⟨hx, hy, hz, hA⟩ := h
  refine ⟨?_, ?_, ?_, ?_⟩ <;> · simp only [carlson_step]; linarith

lemma carlson_iterate_ge (m : ℝ) (hm : 0 ≤ m) (s : CState) (h : cstate_ge m s) :
    ∀ n, cstate_ge m ((carlson_step)^[n] s) := by
  intro n
  induction n with
  | zero => simpa using h
  | succ k ih =>
    rw [Function.iterate_succ_apply']
    exact carlson_step_ge m hm _ ih

/-- Core termination lemma: from any state with nonnegative components whose
triplet has at least two positive entries, the duplication-loop guard
eventually fails, whatever the threshold `Q` is. -/
lemma carlson_loop_exits (s0 : CState) (hx : 0 ≤ s0.x) (hy : 0 ≤ s0.y)
    (hz : 0 ≤ s0.z) (hA : 0 ≤ s0.A)
    (h2 : (0 < s0.x ∧ 0 < s0.y) ∨ (0 < s0.x ∧ 0 < s0.z) ∨ (0 < s0.y ∧ 0 < s0.z))
    (Q : ℝ) : ∃ n, ¬ carlson_loop_continues Q s0 n := by
  rcases le_or_lt Q 0 with hQ | hQ
  · refine ⟨0, ?_⟩
    unfold carlson_loop_continues
    simp only [Function.iterate_zero_apply, not_lt]
    calc (4 : ℝ) ^ (-(0 : ℕ) : ℤ) * Q = Q := by norm_num
    _ ≤ 0 := hQ
    _ ≤ |((carlson_step)^[0] s0).A| := abs_nonneg _
  · -- lamda of the initial state is strictly positive
    have hl : 0 < clamda s0 := by
      have sx : 0 ≤ Real.sqrt s0.x := Real.sqrt_nonneg _
      have sy : 0 ≤ Real.sqrt s0.y := Real.sqrt_nonneg _
      have sz : 0 ≤ Real.sqrt s0.z := Real.sqrt_nonneg _
      rcases h2 with ⟨h1, h2⟩ | ⟨h1, h2⟩ | ⟨h1, h2⟩ <;>
      · have p1 := Real.sqrt_pos.mpr h1
        have p2 := Real.sqrt_pos.mpr h2
        unfold clamda
        nlinarith [mul_pos p1 p2]
    set m := clamda s0 / 4 with hm_def
    have hm : 0 < m := by positivity
    -- every component of the state after one step is at least m
    have h1 : cstate_ge m (carlson_step s0) := by
      refine ⟨?_, ?_, ?_, ?_⟩ <;>
      · simp only [carlson_step, hm_def]
        linarith
    have hiter : ∀ k, cstate_ge m ((carlson_step)^[k] (carlson_step s0)) :=
      carlson_iterate_ge m hm.le _ h1
    -- pick an iteration count with 4^n large enough
    obtain ⟨n0, hn0⟩ := pow_unbounded_of_one_lt (Q / m) (by norm_num : (1 : ℝ) < 4)
    refine ⟨n0 + 1, ?_⟩
    unfold carlson_loop_continues
    simp only [not_lt]
    have hA : m ≤ ((carlson_step)^[n0 + 1] s0).A := by
      have := (hiter n0).2.2.2
      rwa [← Function.iterate_succ_apply] at this
    have h4 : (0 : ℝ) < 4 ^ (n0 + 1) := by positivity
    have hpow : 4 ^ n0 ≤ (4 : ℝ) ^ (n0 + 1) := by
      have : (1 : ℝ) ≤ 4 := by norm_num
      exact pow_le_pow_right this (Nat.le_succ n0)
    have hQn : Q < m * 4 ^ (n0 + 1) := by
      have : Q / m < 4 ^ (n0 + 1) := lt_of_lt_of_le hn0 hpow
      calc Q = Q / m * m := by field_simp
      _ < 4 ^ (n0 + 1) * m := by exact mul_lt_mul_of_pos_right this hm
      _ = m * 4 ^ (n0 + 1) := by ring
    have hzpow : (4 : ℝ) ^ (-((n0 + 1 : ℕ) : ℤ)) = ((4 : ℝ) ^ (n0 + 1))⁻¹ := by
      rw [zpow_neg, zpow_natCast]
    rw [hzpow]
    have step1 : ((4 : ℝ) ^ (n0 + 1))⁻¹ * Q < m := by
      rw [inv_mul_lt_iff h4]
      calc Q < m * 4 ^ (n0 + 1) := hQn
      _ = 4 ^ (n0 + 1) * m := by ring
    calc ((4 : ℝ) ^ (n0 + 1))⁻¹ * Q ≤ m := step1.le
    _ ≤ ((carlson_step)^[n0 + 1] s0).A := hA
    _ ≤ |((carlson_step)^[n0 + 1] s0).A| := le_abs_self _

/-- Claim C1: for every input triplet in the documented domain (nonnegative
reals, at most one of the three zero for `carlson_rf`; nonnegative with `z`
positive and at most one of `x`, `y` zero for `carlson_rd`), the Carlson
duplication loop — iterate while `4**(-n) * Q > abs(An)` — exits after
finitely many iterations, for any threshold `Q`, even though the code imposes
no hard iteration ceiling. -/
theorem carlson_duplication_terminates :
    (∀ x y z : ℝ, 0 ≤ x → 0 ≤ y → 0 ≤ z →
      ((0 < x ∧ 0 < y) ∨ (0 < x ∧ 0 < z) ∨ (0 < y ∧ 0 < z)) →
      ∀ Q : ℝ, ∃ n, ¬ carlson_loop_continues Q (carlson_rf_init x y z) n) ∧
    (∀ x y z : ℝ, 0 ≤ x → 0 ≤ y → 0 < z → (0 < x ∨ 0 < y) →
      ∀ Q : ℝ, ∃ n, ¬ carlson_loop_continues Q (carlson_rd_init x y z) n) := by
  constructor
  · intro x y z hx hy hz h2 Q
    exact carlson_loop_exits (carlson_rf_init x y z) hx hy hz
      (by simp only [carlson_rf_init]; linarith) h2 Q
  · intro x y z hx hy hz h2 Q
    refine carlson_loop_exits (carlson_rd_init x y z) hx hy hz.le
      (by simp only [carlson_rd_init]; linarith) ?_ Q
    rcases h2 with h | h
    · exact Or.inr (Or.inl ⟨h, hz⟩)
    · exact Or.inr (Or.inr ⟨h, hz⟩)

/-- Witness for C1 at the concrete triplets `(1, 2, 0)` (RF) and `(0, 1, 1)`
(RD). -/
theorem carlson_duplication_terminates_witness :
    (0 : ℝ) ≤ 1 ∧
      (∃ n, ¬ carlson_loop_continues 5 (carlson_rf_init 1 2 0) n) ∧
      (∃ n, ¬ carlson_loop_continues 7 (carlson_rd_init 0 1 1) n) :=
  ⟨by norm_num,
    carlson_duplication_terminates.1 1 2 0 (by norm_num) (by norm_num)
      (by norm_num) (Or.inl ⟨by norm_num, by norm_num⟩) 5,
    carlson_duplication_terminates.2 0 1 1 (by norm_num) (by norm_num)
      (by norm_num) (Or.inr (by norm_num)) 7⟩

/-- Claim C7: for every `x > 0`, `carlson_rf` applied to the triplet
`(x, x, x)` (with its default tolerance `3e-4`) returns exactly
`x ** (-1/2)`: the threshold `Q` is `0`, the loop performs zero iterations,
and the truncated series collapses to `An ** (-1/2)`. -/
theorem carlson_rf_isotropic (x : ℝ) (hx : 0 < x) :
    carlson_rf x x x (3 / 10000) = x ^ (-(1 / 2 : ℝ)) := by
  have hA0 : (carlson_rf_init x x x).A = x := by
    simp only [carlson_rf_init]
    ring
  have hQ : carlson_rf_Q x x x (3 / 10000) = 0 := by
    unfold carlson_rf_Q
    rw [hA0]
    simp
  have h0 : ¬ carlson_loop_continues (carlson_rf_Q x x x (3 / 10000))
      (carlson_rf_init x x x) 0 := by
    unfold carlson_loop_continues
    rw [hQ]
    simp only [Function.iterate_zero_apply, mul_zero, not_lt]
    exact abs_nonneg _
  have hiters : carlson_iters (carlson_rf_Q x x x (3 / 10000))
      (carlson_rf_init x x x) = 0 :=
    Nat.sInf_eq_zero.mpr (Or.inl h0)
  unfold carlson_rf
  simp only [hiters]
  simp only [Function.iterate_zero_apply, carlson_rf_init]
  have h3 : (x + x + x) / 3 = x := by ring
  have hxx : x / x = 1 := div_self hx.ne'
  rw [h3, hxx]
  norm_num

/-- Witness for C7 at `x = 4`. -/
theorem carlson_rf_isotropic_witness :
    (0 : ℝ) < 4 ∧ carlson_rf 4 4 4 (3 / 10000) = (4 : ℝ) ^ (-(1 / 2 : ℝ)) :=
  ⟨by norm_num, carlson_rf_isotropic 4 (by norm_num)⟩

/-- The canonical key `(i+1)*(j+1)*(k+1)*(l+1)` (0-based indices) used to
address the 15 independent elements of the kurtosis tensor
(`Wrotate_element` / `Wcons`, dki.py). -/
def tensorKey (i j k l : Fin 3) : ℕ :=
  (i.val + 1) * (j.val + 1) * (k.val + 1) * (l.val + 1)

/-- The module-level dictionary `ind_ele` of dki.py, mapping a canonical key
to the slot of the corresponding independent kurtosis-tensor element
(`none` for a key absent from the dictionary). -/
def ind_ele (key : ℕ) : Option (Fin 15) :=
  if key = 1 then some 0
  else if key = 16 then some 1
  else if key = 81 then some 2
  else if key = 2 then some 3
  else if key = 3 then some 4
  else if key = 8 then some 5
  else if key = 24 then some 6
  else if key = 27 then some 7
  else if key = 54 then some 8
  else if key = 4 then some 9
  else if key = 9 then some 10
  else if key = 36 then some 11
  else if key = 6 then some 12
  else if key = 12 then some 13
  else if key = 18 then some 14
  else none

/-- `kt[ind_ele[key]]`: lookup of an independent kurtosis element through the
canonical-key dictionary (a missing key, which never occurs for reachable
keys, yields `0`). -/
def ktLookup (kt : Fin 15 → ℝ) (key : ℕ) : ℝ :=
  match ind_ele key with
  | some s => kt s
  | none => 0

/-- `Wcons(k_elements)[i][j][k][l]` (dki.py): the dense 3×3×3×3 kurtosis
tensor rebuilt from its 15 independent elements through the canonical key. -/
def Wcons (k_elements : Fin 15 → ℝ) (i j k l : Fin 3) : ℝ :=
  ktLookup k_elements (tensorKey i j k l)

/-- `Wrotate_element(kt, indi, indj, indk, indl, B)` (dki.py): the
`(indi, indj, indk, indl)` component of the kurtosis tensor expressed in the
basis `B`, summed over all 81 original-index combinations. -/
def Wrotate_element (kt : Fin 15 → ℝ) (indi indj indk indl : Fin 3)
    (B : Fin 3 → Fin 3 → ℝ) : ℝ :=
  ∑ il : Fin 3, ∑ jl : Fin 3, ∑ kl : Fin 3, ∑ ll : Fin 3,
    B il indi * B jl indj * B kl indk * B ll indl *
      ktLookup kt (tensorKey il jl kl ll)

lemma tensorKey_eq_iff_perm (i j k l p q r s : Fin 3) :
    tensorKey i j k l = tensorKey p q r s ↔
      ({i, j, k, l} : Multiset (Fin 3)) = {p, q, r, s} := by
  revert i j k l p q r s
  decide

/-- Claim C5: the canonical key `(i+1)(j+1)(k+1)(l+1)` is equal on two index
quadruples exactly when one is a permutation of the other; every reachable
key is one of the 15 dictionary keys of `ind_ele`, each of the 15 slots is
reached, and the dense tensor built by `Wcons` from any 15-element vector is
fully symmetric under permutation of its four indices. -/
theorem tensor_key_classifies :
    (∀ i j k l p q r s : Fin 3,
      tensorKey i j k l = tensorKey p q r s ↔
        ({i, j, k, l} : Multiset (Fin 3)) = {p, q, r, s}) ∧
    (∀ i j k l : Fin 3, (ind_ele (tensorKey i j k l)).isSome) ∧
    (∀ m : Fin 15, ∃ i j k l : Fin 3, ind_ele (tensorKey i j k l) = some m) ∧
    (∀ kE : Fin 15 → ℝ, ∀ i j k l p q r s : Fin 3,
      ({i, j, k, l} : Multiset (Fin 3)) = {p, q, r, s} →
      Wcons kE i j k l = Wcons kE p q r s) := by
  refine ⟨tensorKey_eq_iff_perm, by decide, by decide, ?_⟩
  intro kE i j k l p q r s h
  unfold Wcons
  rw [(tensorKey_eq_iff_perm i j k l p q r s).mpr h]

/-- Witness for C5: a transposition of the middle indices at a concrete
15-element vector. -/
theorem tensor_key_classifies_witness :
    ({0, 1, 0, 0} : Multiset (Fin 3)) = {0, 0, 1, 0} ∧
      Wcons (fun m => (m.val : ℝ)) 0 1 0 0 = Wcons (fun m => (m.val : ℝ)) 0 0 1 0 :=
  ⟨by decide,
    tensor_key_classifies.2.2.2 (fun m => (m.val : ℝ)) 0 1 0 0 0 0 1 0 (by decide)⟩

/-- `_positive_evals(L1, L2, L3, er)` (dki.py): all three eigenvalues strictly
exceed the threshold `er` (default `2e-7`). -/
def positive_evals (L1 L2 L3 er : ℝ) : Prop :=
  L1 > er ∧ L2 > er ∧ L3 > er

/-- Modelled from NumPy: `np.arctanh(t) = (1/2) * log((1+t)/(1-t))`, used in
the `b ≈ c` branch of `_F2m`. -/
def np_arctanh (t : ℝ) : ℝ :=
  1 / 2 * Real.log ((1 + t) / (1 - t))

/-- `_F2m(a, b, c)` (dki.py): the Tabesh function `F_2`, with its four
policies — generic closed form (`b` and `c` distinct), the `b ≈ c` reduced
form with the signed-square-root `arctanh`/`arctan` branch, the isotropic
constant `6/15`, and the non-positive-eigenvalue gate to `0`. -/
def _F2m (a b c : ℝ) : ℝ :=
  let er : ℝ := 25 / 1000
  if positive_evals a b c (2 / 10 ^ 7) then
    if |b - c| > b * er then
      let RF := carlson_rf (a / b) (a / c) 1 (3 / 10000)
      let RD := carlson_rd (a / b) (a / c) 1 (1 / 10000)
      (a + b + c) ^ 2 / (3 * (b - c) ^ 2) *
        ((b + c) / Real.sqrt (b * c) * RF +
          (2 * a - b - c) / (3 * Real.sqrt (b * c)) * RD - 2)
    else if |b - c| < b * er ∧ |a - b| > b * er then
      let L3 := (c + b) / 2
      let x := 1 - a / L3
      let alpha :=
        if x > 0 then 1 / Real.sqrt x * np_arctanh (Real.sqrt x)
        else 1 / Real.sqrt (-x) * Real.arctan (Real.sqrt (-x))
      6 * (a + 2 * L3) ^ 2 / (144 * L3 ^ 2 * (a - L3) ^ 2) *
        (L3 * (a + 2 * L3) + a * (a - 4 * L3) * alpha)
    else if |b - c| < b * er ∧ |a - b| < b * er then 6 / 15
    else 0
  else 0

/-- `_F1m(a, b, c)` (dki.py): the Tabesh function `F_1`, with its four
policies — generic closed form (`a` distinct from both `b` and `c`), the two
pairwise-degenerate reductions through `_F2m`, the isotropic constant `1/5`,
and the non-positive-eigenvalue gate to `0`. -/
def _F1m (a b c : ℝ) : ℝ :=
  let er : ℝ := 25 / 1000
  if positive_evals a b c (2 / 10 ^ 7) then
    if |a - b| ≥ a * er ∧ |a - c| ≥ a * er then
      let RFm := carlson_rf (a / b) (a / c) 1 (3 / 10000)
      let RDm := carlson_rd (a / b) (a / c) 1 (1 / 10000)
      (a + b + c) ^ 2 / (18 * (a - b) * (a - c)) *
        (Real.sqrt (b * c) / a * RFm +
          (3 * a ^ 2 - a * b - a * c - b * c) / (3 * a * Real.sqrt (b * c)) *
            RDm - 1)
    else if |a - b| < a * er ∧ |a - c| > a * er then
      _F2m c ((a + b) / 2) ((a + b) / 2) / 2
    else if |a - c| < a * er ∧ |a - b| > a * er then
      _F2m b ((a + c) / 2) ((a + c) / 2) / 2
    else if |a - c| < a * er ∧ |a - b| < a * er then 1 / 5
    else 0
  else 0

/-- Machine tolerance of the `G` functions: `np.finfo(float64).eps * 1e5`. -/
def G_er : ℝ := 2 ^ (-(52 : ℤ)) * 10 ^ 5

/-- `_G1m(a, b, c)` (dki.py): the Tabesh function `G_1` with its generic
branch, its `b ≈ c` reduction and the non-positive-eigenvalue gate to `0`. -/
def _G1m (a b c : ℝ) : ℝ :=
  if positive_evals a b c (2 / 10 ^ 7) then
    if |b - c| > G_er then
      (a + b + c) ^ 2 / (18 * b * (b - c) ^ 2) *
        (2 * b + (c ^ 2 - 3 * b * c) / Real.sqrt (b * c))
    else if |b - c| < G_er then (a + 2 * b) ^ 2 / (24 * b ^ 2)
    else 0
  else 0

/-- `_G2m(a, b, c)` (dki.py): the Tabesh function `G_2` with its generic
branch, its `b ≈ c` reduction and the non-positive-eigenvalue gate to `0`. -/
def _G2m (a b c : ℝ) : ℝ :=
  if positive_evals a b c (2 / 10 ^ 7) then
    if |b - c| > G_er then
      (a + b + c) ^ 2 / (3 * (b - c) ^ 2) *
        ((b + c) / Real.sqrt (b * c) - 2)
    else if |b - c| < G_er then (a + 2 * b) ^ 2 / (12 * b ^ 2)
    else 0
  else 0

/-- Counterexample for C2: at `a = 1e-7`, which is positive but below the
`2e-7` positive-eigenvalue threshold, both `_F1m(a,a,a)` and `_F2m(a,a,a)`
are gated to `0` rather than the isotropic constants `1/5` and `6/15`. -/
theorem F_isotropic_gated_at_small_eval :
    (0 : ℝ) < 1 / 10 ^ 7 ∧
      _F1m (1 / 10 ^ 7) (1 / 10 ^ 7) (1 / 10 ^ 7) = 0 ∧
      _F2m (1 / 10 ^ 7) (1 / 10 ^ 7) (1 / 10 ^ 7) = 0 ∧
      (0 : ℝ) ≠ 1 / 5 ∧ (0 : ℝ) ≠ 6 / 15 := by
  have hne : ¬ positive_evals (1 / 10 ^ 7) (1 / 10 ^ 7) (1 / 10 ^ 7)
      (2 / 10 ^ 7) := by
    rintro ⟨h1, -, -⟩
    norm_num at h1
  refine ⟨by norm_num, ?_, ?_, by norm_num, by norm_num⟩
  · unfold _F1m
    rw [if_neg hne]
  · unfold _F2m
    rw [if_neg hne]

/-- Claim C2 (amended): for every `a` above the positive-eigenvalue threshold
`2e-7` the Tabesh coefficient functions at the fully degenerate isotropic
triplet return the constants `_F1m(a,a,a) = 1/5` and `_F2m(a,a,a) = 6/15`.
(For `0 < a ≤ 2e-7` the positive-eigenvalue gate returns `0` instead.) -/
theorem F_isotropic_constants (a : ℝ) (ha : a > 2 / 10 ^ 7) :
    _F1m a a a = 1 / 5 ∧ _F2m a a a = 6 / 15 := by
  have hpos : positive_evals a a a (2 / 10 ^ 7) := ⟨ha, ha, ha⟩
  have ha0 : (0 : ℝ) < a := lt_trans (by norm_num) ha
  have her : 0 < a * (25 / 1000) := by positivity
  constructor
  · unfold _F1m
    rw [if_pos hpos]
    simp only [sub_self, abs_zero]
    rw [if_neg (by rintro ⟨h, -⟩; linarith), if_neg (by rintro ⟨-, h⟩; linarith),
      if_neg (by rintro ⟨-, h⟩; linarith), if_pos ⟨her, her⟩]
  · unfold _F2m
    rw [if_pos hpos]
    simp only [sub_self, abs_zero]
    rw [if_neg (by intro h; linarith), if_neg (by rintro ⟨-, h⟩; linarith),
      if_pos ⟨her, her⟩]

/-- Witness for (amended) C2 at `a = 1`. -/
theorem F_isotropic_constants_witness :
    (1 : ℝ) > 2 / 10 ^ 7 ∧ _F1m 1 1 1 = 1 / 5 ∧ _F2m 1 1 1 = 6 / 15 :=
  ⟨by norm_num, (F_isotropic_constants 1 (by norm_num)).1,
    (F_isotropic_constants 1 (by norm_num)).2⟩

/-- `split_dki_param`: the three diffusion-tensor eigenvalues, entries
`0..2` of the 27-parameter voxel vector. -/
def split_evals (p : Fin 27 → ℝ) (i : Fin 3) : ℝ :=
  p ⟨i.val, by have := i.isLt; omega⟩

/-- `split_dki_param`: the eigenvector matrix, entries `3..11` of the
27-parameter voxel vector reshaped row-major to 3×3 (columns are the
eigenvectors). -/
def split_evecs (p : Fin 27 → ℝ) (r c : Fin 3) : ℝ :=
  p ⟨3 + 3 * r.val + c.val, by have := r.isLt; have := c.isLt; omega⟩

/-- `split_dki_param`: the 15 kurtosis-tensor elements, entries `12..26` of
the 27-parameter voxel vector. -/
def split_kt (p : Fin 27 → ℝ) (m : Fin 15) : ℝ :=
  p ⟨12 + m.val, by have := m.isLt; omega⟩

/-- `ndarray.clip(min=·)`: lower clipping when a bound is given. -/
def clip_min (o : Option ℝ) (v : ℝ) : ℝ :=
  match o with
  | some m => max m v
  | none => v

/-- `ndarray.clip(max=·)`: upper clipping when a bound is given. -/
def clip_max (o : Option ℝ) (v : ℝ) : ℝ :=
  match o with
  | some M => min M v
  | none => v

/-- Modelled from the spec: `dipy.reconst.dti.mean_diffusivity` (not under
src/), the mean of the three eigenvalues. -/
def mean_diffusivity (e : Fin 3 → ℝ) : ℝ :=
  (e 0 + e 1 + e 2) / 3

/-- Modelled from the spec: `dipy.reconst.dti.radial_diffusivity` (not under
src/), the mean of the two smaller eigenvalues. -/
def radial_diffusivity (e : Fin 3 → ℝ) : ℝ :=
  (e 1 + e 2) / 2

/-- `mean_kurtosis(dki_params, min_kurtosis, max_kurtosis)` (dki.py) at one
voxel, analytical branch: `F1`/`F2`-weighted rotated tensor elements,
then clip below by `min_kurtosis` and above by `max_kurtosis`. -/
def mean_kurtosis (p : Fin 27 → ℝ) (min_kurtosis max_kurtosis : Option ℝ) : ℝ :=
  let evals := split_evals p
  let evecs := split_evecs p
  let kt := split_kt p
  let MK :=
    _F1m (evals 0) (evals 1) (evals 2) * Wrotate_element kt 0 0 0 0 evecs +
    _F1m (evals 1) (evals 0) (evals 2) * Wrotate_element kt 1 1 1 1 evecs +
    _F1m (evals 2) (evals 1) (evals 0) * Wrotate_element kt 2 2 2 2 evecs +
    _F2m (evals 0) (evals 1) (evals 2) * Wrotate_element kt 1 1 2 2 evecs +
    _F2m (evals 1) (evals 0) (evals 2) * Wrotate_element kt 0 0 2 2 evecs +
    _F2m (evals 2) (evals 1) (evals 0) * Wrotate_element kt 0 0 1 1 evecs
  clip_max max_kurtosis (clip_min min_kurtosis MK)

/-- `radial_kurtosis(dki_params, min_kurtosis, max_kurtosis)` (dki.py) at one
voxel, analytical branch: `G1`/`G2`-weighted rotated tensor elements, then
the same two clips. -/
def radial_kurtosis (p : Fin 27 → ℝ) (min_kurtosis max_kurtosis : Option ℝ) : ℝ :=
  let evals := split_evals p
  let evecs := split_evecs p
  let kt := split_kt p
  let RK :=
    _G1m (evals 0) (evals 1) (evals 2) * Wrotate_element kt 1 1 1 1 evecs +
    _G1m (evals 0) (evals 2) (evals 1) * Wrotate_element kt 2 2 2 2 evecs +
    _G2m (evals 0) (evals 1) (evals 2) * Wrotate_element kt 1 1 2 2 evecs
  clip_max max_kurtosis (clip_min min_kurtosis RK)

/-- `axial_kurtosis(dki_params, min_kurtosis, max_kurtosis)` (dki.py) at one
voxel, analytical branch: voxels failing the positive-eigenvalue gate keep
the initial `0`, the others get `Wxxxx * md^2 / evals[0]^2`; then the same
two clips. -/
def axial_kurtosis (p : Fin 27 → ℝ) (min_kurtosis max_kurtosis : Option ℝ) : ℝ :=
  let evals := split_evals p
  let evecs := split_evecs p
  let kt := split_kt p
  let AK :=
    if positive_evals (evals 0) (evals 1) (evals 2) (2 / 10 ^ 7) then
      Wrotate_element kt 0 0 0 0 evecs * (mean_diffusivity evals) ^ 2 /
        (evals 0) ^ 2
    else 0
  clip_max max_kurtosis (clip_min min_kurtosis AK)

/-- `mean_kurtosis_tensor(dki_params, min_kurtosis, max_kurtosis)` (dki.py)
at one voxel: the trace identity on the raw kurtosis elements, then the same
two clips. -/
def mean_kurtosis_tensor (p : Fin 27 → ℝ)
    (min_kurtosis max_kurtosis : Option ℝ) : ℝ :=
  let MKT := 1 / 5 * (p 12 + p 13 + p 14 + 2 * p 21 + 2 * p 22 + 2 * p 23)
  clip_max max_kurtosis (clip_min min_kurtosis MKT)

/-- `radial_tensor_kurtosis(dki_params, min_kurtosis, max_kurtosis)` (dki.py)
at one voxel: voxels failing the positive-eigenvalue gate keep the initial
`0`, the others get `3/8 * (Wyyyy + Wzzzz + 2*Wyyzz) * md^2 / rd^2`; then the
same two clips. -/
def radial_tensor_kurtosis (p : Fin 27 → ℝ)
    (min_kurtosis max_kurtosis : Option ℝ) : ℝ :=
  let evals := split_evals p
  let evecs := split_evecs p
  let kt := split_kt p
  let RTK :=
    if positive_evals (evals 0) (evals 1) (evals 2) (2 / 10 ^ 7) then
      3 / 8 * (Wrotate_element kt 1 1 1 1 evecs +
          Wrotate_element kt 2 2 2 2 evecs +
          2 * Wrotate_element kt 1 1 2 2 evecs) *
        (mean_diffusivity evals) ^ 2 / (radial_diffusivity evals) ^ 2
    else 0
  clip_max max_kurtosis (clip_min min_kurtosis RTK)

lemma clip_min_max_mem (mn mx v : ℝ) (h : mn ≤ mx) :
    mn ≤ clip_max (some mx) (clip_min (some mn) v) ∧
      clip_max (some mx) (clip_min (some mn) v) ≤ mx := by
  simp only [clip_min, clip_max]
  exact ⟨le_min h (le_max_left _ _), min_le_left _ _⟩

/-- Claim C3: for every parameter vector and every pair of bounds with
`min_kurtosis ≤ max_kurtosis`, each kurtosis scalar metric (`mean_kurtosis`,
`radial_kurtosis`, `axial_kurtosis`, `mean_kurtosis_tensor`,
`radial_tensor_kurtosis`) returns a value inside `[min_kurtosis,
max_kurtosis]`, voxels gated out by the positive-eigenvalue mask included. -/
theorem kurtosis_metrics_clipped (p : Fin 27 → ℝ) (mn mx : ℝ) (h : mn ≤ mx) :
    (mn ≤ mean_kurtosis p (some mn) (some mx) ∧
      mean_kurtosis p (some mn) (some mx) ≤ mx) ∧
    (mn ≤ radial_kurtosis p (some mn) (some mx) ∧
      radial_kurtosis p (some mn) (some mx) ≤ mx) ∧
    (mn ≤ axial_kurtosis p (some mn) (some mx) ∧
      axial_kurtosis p (some mn) (some mx) ≤ mx) ∧
    (mn ≤ mean_kurtosis_tensor p (some mn) (some mx) ∧
      mean_kurtosis_tensor p (some mn) (some mx) ≤ mx) ∧
    (mn ≤ radial_tensor_kurtosis p (some mn) (some mx) ∧
      radial_tensor_kurtosis p (some mn) (some mx) ≤ mx) :=
  ⟨clip_min_max_mem mn mx _ h, clip_min_max_mem mn mx _ h,
    clip_min_max_mem mn mx _ h, clip_min_max_mem mn mx _ h,
    clip_min_max_mem mn mx _ h⟩

/-- Witness for C3 at the zero parameter vector with the default bounds
`[-3/7, 3]`. -/
theorem kurtosis_metrics_clipped_witness :
    (-(3 / 7) : ℝ) ≤ 3 ∧
      (-(3 / 7) : ℝ) ≤ mean_kurtosis (fun _ => 0) (some (-(3 / 7))) (some 3) ∧
      mean_kurtosis (fun _ => 0) (some (-(3 / 7))) (some 3) ≤ 3 :=
  ⟨by norm_num,
    (kurtosis_metrics_clipped (fun _ => 0) (-(3 / 7)) 3 (by norm_num)).1.1,
    (kurtosis_metrics_clipped (fun _ => 0) (-(3 / 7)) 3 (by norm_num)).1.2⟩

/-- The signed mean `W` computed inside `kurtosis_fractional_anisotropy`
(dki.py): `1/5 * (Wxxxx + Wyyyy + Wzzzz + 2*Wxxyy + 2*Wxxzz + 2*Wyyzz)` on
the raw kurtosis entries `dki_params[..., 12..26]`. -/
def kfa_mean (p : Fin 27 → ℝ) : ℝ :=
  1 / 5 * (p 12 + p 13 + p 14 + 2 * p 21 + 2 * p 22 + 2 * p 23)

/-- The Frobenius-norm numerator `A` of `kurtosis_fractional_anisotropy`
(dki.py). -/
def kfa_numerator (p : Fin 27 → ℝ) : ℝ :=
  (p 12 - kfa_mean p) ^ 2 + (p 13 - kfa_mean p) ^ 2 + (p 14 - kfa_mean p) ^ 2 +
    4 * (p 15 ^ 2 + p 16 ^ 2 + p 17 ^ 2 + p 18 ^ 2 + p 19 ^ 2 + p 20 ^ 2) +
    6 * ((p 21 - kfa_mean p / 3) ^ 2 + (p 22 - kfa_mean p / 3) ^ 2 +
      (p 23 - kfa_mean p / 3) ^ 2) +
    12 * (p 24 ^ 2 + p 25 ^ 2 + p 26 ^ 2)

/-- The Frobenius-norm denominator `B` of `kurtosis_fractional_anisotropy`
(dki.py). -/
def kfa_denominator (p : Fin 27 → ℝ) : ℝ :=
  p 12 ^ 2 + p 13 ^ 2 + p 14 ^ 2 +
    4 * (p 15 ^ 2 + p 16 ^ 2 + p 17 ^ 2 + p 18 ^ 2 + p 19 ^ 2 + p 20 ^ 2) +
    6 * (p 21 ^ 2 + p 22 ^ 2 + p 23 ^ 2) +
    12 * (p 24 ^ 2 + p 25 ^ 2 + p 26 ^ 2)

/-- `kurtosis_fractional_anisotropy(dki_params)` (dki.py) at one voxel:
`sqrt(A/B)` where both guards hold (`B > 0` and `W > 1e-8`), and the initial
`0` everywhere else. -/
def kurtosis_fractional_anisotropy (p : Fin 27 → ℝ) : ℝ :=
  if kfa_denominator p > 0 ∧ kfa_mean p > 1 / 10 ^ 8 then
    Real.sqrt (kfa_numerator p / kfa_denominator p)
  else 0

/-- An isotropic kurtosis tensor: `Wxxxx = Wyyyy = Wzzzz = 1`,
`Wxxyy = Wxxzz = Wyyzz = 1/3`, all other entries `0`. -/
def kfa_iso_params : Fin 27 → ℝ := fun i =>
  if i.val = 12 ∨ i.val = 13 ∨ i.val = 14 then 1
  else if i.val = 21 ∨ i.val = 22 ∨ i.val = 23 then 1 / 3
  else 0

/-- Counterexample for C6: on the isotropic kurtosis tensor the code returns
`0` through `sqrt(A/B)` (the numerator vanishes) even though the denominator
is positive and the signed mean exceeds the tolerance, so "returns 0 exactly
when the denominator is non-positive or the mean is below the tolerance"
fails in the "only if" direction. -/
theorem kfa_zero_inside_guard :
    kurtosis_fractional_anisotropy kfa_iso_params = 0 ∧
      0 < kfa_denominator kfa_iso_params ∧
      1 / 10 ^ 8 < kfa_mean kfa_iso_params := by
  have h12 : kfa_iso_params 12 = 1 := rfl
  have h13 : kfa_iso_params 13 = 1 := rfl
  have h14 : kfa_iso_params 14 = 1 := rfl
  have h15 : kfa_iso_params 15 = 0 := rfl
  have h16 : kfa_iso_params 16 = 0 := rfl
  have h17 : kfa_iso_params 17 = 0 := rfl
  have h18 : kfa_iso_params 18 = 0 := rfl
  have h19 : kfa_iso_params 19 = 0 := rfl
  have h20 : kfa_iso_params 20 = 0 := rfl
  have h21 : kfa_iso_params 21 = 1 / 3 := rfl
  have h22 : kfa_iso_params 22 = 1 / 3 := rfl
  have h23 : kfa_iso_params 23 = 1 / 3 := rfl
  have h24 : kfa_iso_params 24 = 0 := rfl
  have h25 : kfa_iso_params 25 = 0 := rfl
  have h26 : kfa_iso_params 26 = 0 := rfl
  have hm : kfa_mean kfa_iso_params = 1 := by
    unfold kfa_mean
    rw [h12, h13, h14, h21, h22, h23]
    norm_num
  have hd : kfa_denominator kfa_iso_params = 5 := by
    unfold kfa_denominator
    rw [h12, h13, h14, h15, h16, h17, h18, h19, h20, h21, h22, h23, h24, h25,
      h26]
    norm_num
  have hn : kfa_numerator kfa_iso_params = 0 := by
    unfold kfa_numerator
    rw [hm, h12, h13, h14, h15, h16, h17, h18, h19, h20, h21, h22, h23, h24,
      h25, h26]
    norm_num
  refine ⟨?_, by rw [hd]; norm_num, by rw [hm]; norm_num⟩
  unfold kurtosis_fractional_anisotropy
  rw [if_pos ⟨by rw [hd]; norm_num, by rw [hm]; norm_num⟩, hn]
  simp

/-- Claim C6 (amended): `kurtosis_fractional_anisotropy` returns
`sqrt(numerator/denominator)` whenever the denominator is positive and the
signed mean exceeds the `1e-8` tolerance, and returns `0` otherwise; no
division by zero is ever reached (the division happens only under the
`denominator > 0` guard).  The converse of the zero case does not hold, since
`sqrt(numerator/denominator)` itself vanishes on isotropic tensors. -/
theorem kurtosis_fractional_anisotropy_guard (p : Fin 27 → ℝ) :
    (kfa_denominator p > 0 ∧ kfa_mean p > 1 / 10 ^ 8 →
      kurtosis_fractional_anisotropy p =
        Real.sqrt (kfa_numerator p / kfa_denominator p)) ∧
    (¬(kfa_denominator p > 0 ∧ kfa_mean p > 1 / 10 ^ 8) →
      kurtosis_fractional_anisotropy p = 0) := by
  constructor <;> intro h <;> simp only [kurtosis_fractional_anisotropy]
  · rw [if_pos h]
  · rw [if_neg h]

/-- Witness for (amended) C6 at the all-zero parameter vector, which fails
the guard. -/
theorem kurtosis_fractional_anisotropy_guard_witness :
    ¬(kfa_denominator (fun _ => 0) > 0 ∧
        kfa_mean (fun _ => 0) > 1 / 10 ^ 8) ∧
      kurtosis_fractional_anisotropy (fun _ => 0) = 0 :=
  ⟨by rintro ⟨h, -⟩; unfold kfa_denominator at h; norm_num at h,
    (kurtosis_fractional_anisotropy_guard (fun _ => 0)).2
      (by rintro ⟨h, -⟩; unfold kfa_denominator at h; norm_num at h)⟩

/-- `directional_diffusion(dt, v, min_diffusivity)` (dki.py) for a single
direction: the fixed quadratic contraction of the direction with the six
lower-triangular diffusion-tensor elements, clipped below by
`min_diffusivity` when one is given. -/
def directional_diffusion (dt : Fin 6 → ℝ) (v : Fin 3 → ℝ)
    (min_diffusivity : Option ℝ) : ℝ :=
  let adc := v 0 * v 0 * dt 0 + 2 * v 0 * v 1 * dt 1 + v 1 * v 1 * dt 2 +
    2 * v 0 * v 2 * dt 3 + 2 * v 1 * v 2 * dt 4 + v 2 * v 2 * dt 5
  clip_min min_diffusivity adc

/-- `directional_diffusion_variance(kt, v)` (dki.py) for a single direction:
the fixed quartic contraction of the direction with the 15 kurtosis-tensor
elements. -/
def directional_diffusion_variance (kt : Fin 15 → ℝ) (v : Fin 3 → ℝ) : ℝ :=
  v 0 * v 0 * v 0 * v 0 * kt 0 +
    v 1 * v 1 * v 1 * v 1 * kt 1 +
    v 2 * v 2 * v 2 * v 2 * kt 2 +
    4 * (v 0 * v 0 * v 0 * v 1) * kt 3 +
    4 * (v 0 * v 0 * v 0 * v 2) * kt 4 +
    4 * (v 0 * v 1 * v 1 * v 1) * kt 5 +
    4 * (v 1 * v 1 * v 1 * v 2) * kt 6 +
    4 * (v 0 * v 2 * v 2 * v 2) * kt 7 +
    4 * (v 1 * v 2 * v 2 * v 2) * kt 8 +
    6 * (v 0 * v 0 * v 1 * v 1) * kt 9 +
    6 * (v 0 * v 0 * v 2 * v 2) * kt 10 +
    6 * (v 1 * v 1 * v 2 * v 2) * kt 11 +
    12 * (v 0 * v 0 * v 1 * v 2) * kt 12 +
    12 * (v 0 * v 1 * v 1 * v 2) * kt 13 +
    12 * (v 0 * v 1 * v 2 * v 2) * kt 14

/-- `directional_kurtosis(dt, md, kt, v, min_diffusivity, min_kurtosis)`
(dki.py) for a single direction: `adv * (md/adc)^2`, clipped below by
`min_kurtosis` when one is given. -/
def directional_kurtosis (dt : Fin 6 → ℝ) (md : ℝ) (kt : Fin 15 → ℝ)
    (v : Fin 3 → ℝ) (min_diffusivity min_kurtosis : Option ℝ) : ℝ :=
  let adc := directional_diffusion dt v min_diffusivity
  let adv := directional_diffusion_variance kt v
  clip_min min_kurtosis (adv * (md / adc) ^ 2)

/-- Modelled from the spec: `dipy.core.geometry.sphere2cart` (not under
src/), conversion of polar angles to a Cartesian unit direction. -/
def sphere2cart (r theta phi : ℝ) : Fin 3 → ℝ := fun i =>
  if i.val = 0 then r * Real.sin theta * Real.cos phi
  else if i.val = 1 then r * Real.sin theta * Real.sin phi
  else r * Real.cos theta

/-- Python `max` over a list (`max(max_val)`), with junk value `0` on the
empty list (where Python would raise). -/
def pythonMax : List ℝ → ℝ
  | [] => 0
  | a :: t => t.foldl max a

/-- `np.mean` of a one-dimensional array. -/
def np_mean (l : List ℝ) : ℝ :=
  l.sum / l.length

/-- One pass of the refinement loop of `_voxel_kurtosis_maximum` (dki.py) for
candidate `p`: the quasi-Newton minimizer (abstracted as `bfgs`) produces two
polar angles, these are converted back to a Cartesian direction, directional
kurtosis is re-evaluated there, and the candidate with the strictly larger
value is retained. -/
def kurtosis_refine_step (dt : Fin 6 → ℝ) (md : ℝ) (kt : Fin 15 → ℝ)
    (bfgs : ℕ → ℝ × ℝ) (st : ℝ × (Fin 3 → ℝ)) (p : ℕ) : ℝ × (Fin 3 → ℝ) :=
  let ang := bfgs p
  let k_dir := sphere2cart 1 ang.1 ang.2
  let k_val := directional_kurtosis dt md kt k_dir (some 0) (some (-(3 / 7)))
  if k_val > st.1 then (k_val, k_dir) else st

/-- `_voxel_kurtosis_maximum(dt, md, kt, sphere, gtol)` (dki.py).  The sphere
is its list of vertices; the Cython `local_maxima(akc, sphere.edges)` is
abstracted as `localMax` (a function of the sampled values, the adjacency
being fixed); the BFGS minimizer is abstracted as `bfgs`.  When no local
maximum is found the pair `(np.mean(akc), zeros(3))` is returned; otherwise
the coarse maximum (`max(max_val)`, with the direction picked by the
`argmax`-of-a-method quirk, which indexes slot `0`) is optionally refined
whenever `gtol` is not `None`. -/
def _voxel_kurtosis_maximum (localMax : List ℝ → List ℝ × List ℕ)
    (bfgs : ℕ → ℝ × ℝ) (dt : Fin 6 → ℝ) (md : ℝ) (kt : Fin 15 → ℝ)
    (vertices : List (Fin 3 → ℝ)) (gtol : Option ℝ) : ℝ × (Fin 3 → ℝ) :=
  let akc := vertices.map
    (fun v => directional_kurtosis dt md kt v (some 0) (some (-(3 / 7))))
  let max_val := (localMax akc).1
  let ind := (localMax akc).2
  if max_val.length = 0 then (np_mean akc, fun _ => 0)
  else
    let max_dir := ind.map (fun i => vertices.getD i (fun _ => 0))
    let max_value := pythonMax max_val
    let max_direction := max_dir.getD 0 (fun _ => 0)
    match gtol with
    | none => (max_value, max_direction)
    | some _ =>
      (List.range max_val.length).foldl
        (kurtosis_refine_step dt md kt bfgs) (max_value, max_direction)

lemma foldl_max_init_le (t : List ℝ) : ∀ a : ℝ, a ≤ t.foldl max a := by
  induction t with
  | nil => intro a; exact le_refl a
  | cons b t ih =>
    intro a
    exact le_trans (le_max_left a b) (ih (max a b))

lemma mem_le_foldl_max (t : List ℝ) : ∀ v ∈ t, ∀ a : ℝ, v ≤ t.foldl max a := by
  induction t with
  | nil => intro v hv; cases hv
  | cons b t ih =>
    intro v hv a
    rcases List.mem_cons.mp hv with rfl | hv
    · exact le_trans (le_max_right a v) (foldl_max_init_le t _)
    · exact ih v hv (max a b)

lemma le_pythonMax (l : List ℝ) (v : ℝ) (hv : v ∈ l) : v ≤ pythonMax l := by
  induction l with
  | nil => cases hv
  | cons a t ih =>
    clear ih
    unfold pythonMax
    rcases List.mem_cons.mp hv with rfl | hv
    · exact foldl_max_init_le t v
    · exact mem_le_foldl_max t v hv a

lemma refine_step_fst_le (dt : Fin 6 → ℝ) (md : ℝ) (kt : Fin 15 → ℝ)
    (bfgs : ℕ → ℝ × ℝ) (st : ℝ × (Fin 3 → ℝ)) (p : ℕ) :
    st.1 ≤ (kurtosis_refine_step dt md kt bfgs st p).1 := by
  unfold kurtosis_refine_step
  dsimp only
  split
  · next h => exact le_of_lt h
  · exact le_refl _

lemma refine_foldl_fst_le (dt : Fin 6 → ℝ) (md : ℝ) (kt : Fin 15 → ℝ)
    (bfgs : ℕ → ℝ × ℝ) (l : List ℕ) :
    ∀ st : ℝ × (Fin 3 → ℝ),
      st.1 ≤ (l.foldl (kurtosis_refine_step dt md kt bfgs) st).1 := by
  induction l with
  | nil => intro st; exact le_refl _
  | cons p t ih =>
    intro st
    exact le_trans (refine_step_fst_le dt md kt bfgs st p) (ih _)

/-- Claim C4: whenever the coarse sphere sampling yields at least one
adjacency-graph local maximum, the `max_value` returned by
`_voxel_kurtosis_maximum` is at least every directional-kurtosis value among
the coarse local maxima, for every `gtol` (including `None`) and for every
possible behaviour of the quasi-Newton refinement: refinement never
regresses below the coarse sample maximum. -/
theorem voxel_kurtosis_maximum_ge_coarse
    (localMax : List ℝ → List ℝ × List ℕ) (bfgs : ℕ → ℝ × ℝ)
    (dt : Fin 6 → ℝ) (md : ℝ) (kt : Fin 15 → ℝ)
    (vertices : List (Fin 3 → ℝ)) (gtol : Option ℝ)
    (h : (localMax (vertices.map
      (fun v => directional_kurtosis dt md kt v (some 0)
        (some (-(3 / 7)))))).1 ≠ []) :
    ∀ v ∈ (localMax (vertices.map
      (fun w => directional_kurtosis dt md kt w (some 0)
        (some (-(3 / 7)))))).1,
      v ≤ (_voxel_kurtosis_maximum localMax bfgs dt md kt vertices gtol).1 := by
  intro v hv
  have hle : v ≤ pythonMax (localMax (vertices.map
      (fun w => directional_kurtosis dt md kt w (some 0)
        (some (-(3 / 7)))))).1 :=
    le_pythonMax _ v hv
  have hne : ¬ (localMax (vertices.map
      (fun w => directional_kurtosis dt md kt w (some 0)
        (some (-(3 / 7)))))).1.length = 0 :=
    fun hlen => h (List.length_eq_zero.mp hlen)
  unfold _voxel_kurtosis_maximum
  dsimp only
  rw [if_neg hne]
  cases gtol with
  | none =>
    dsimp only
    exact hle
  | some g =>
    dsimp only
    exact le_trans hle (refine_foldl_fst_le dt md kt bfgs _ (_, _))

/-- Witness for C4: a constant `local_maxima` stub returning the single
candidate value `2` at slot `0`, on an empty vertex list with `gtol = None`. -/
theorem voxel_kurtosis_maximum_ge_coarse_witness :
    (((fun _ : List ℝ => (([2] : List ℝ), ([0] : List ℕ)))
        (List.map (fun v => directional_kurtosis (fun _ => 0) 0 (fun _ => 0) v
          (some 0) (some (-(3 / 7)))) [])).1 ≠ []) ∧
      (2 : ℝ) ≤ (_voxel_kurtosis_maximum (fun _ => ([2], [0]))
        (fun _ => (0, 0)) (fun _ => 0) 0 (fun _ => 0) [] none).1 :=
  ⟨by simp,
    voxel_kurtosis_maximum_ge_coarse (fun _ => ([2], [0])) (fun _ => (0, 0))
      (fun _ => 0) 0 (fun _ => 0) [] none (by simp) 2 (by simp)⟩

/-- Claim C9: whenever the coarse sphere sampling yields zero adjacency-graph
local maxima, `_voxel_kurtosis_maximum` returns the mean of the
directional-kurtosis values sampled over the sphere, paired with the zero
direction vector (and, being total, raises no error). -/
theorem voxel_kurtosis_maximum_no_peaks
    (localMax : List ℝ → List ℝ × List ℕ) (bfgs : ℕ → ℝ × ℝ)
    (dt : Fin 6 → ℝ) (md : ℝ) (kt : Fin 15 → ℝ)
    (vertices : List (Fin 3 → ℝ)) (gtol : Option ℝ)
    (h : (localMax (vertices.map
      (fun v => directional_kurtosis dt md kt v (some 0)
        (some (-(3 / 7)))))).1 = []) :
    _voxel_kurtosis_maximum localMax bfgs dt md kt vertices gtol =
      (np_mean (vertices.map
        (fun v => directional_kurtosis dt md kt v (some 0)
          (some (-(3 / 7))))), fun _ => 0) := by
  unfold _voxel_kurtosis_maximum
  dsimp only
  rw [if_pos (by rw [h]; rfl)]

/-- Witness for C9: a constant `local_maxima` stub returning no candidate, on
an empty vertex list. -/
theorem voxel_kurtosis_maximum_no_peaks_witness :
    (((fun _ : List ℝ => (([] : List ℝ), ([] : List ℕ)))
        (List.map (fun v => directional_kurtosis (fun _ => 0) 0 (fun _ => 0) v
          (some 0) (some (-(3 / 7)))) [])).1 = []) ∧
      _voxel_kurtosis_maximum (fun _ => ([], [])) (fun _ => (0, 0))
          (fun _ => 0) 0 (fun _ => 0) [] none =
        (np_mean (List.map (fun v => directional_kurtosis (fun _ => 0) 0
          (fun _ => 0) v (some 0) (some (-(3 / 7)))) []), fun _ => 0) :=
  ⟨rfl,
    voxel_kurtosis_maximum_no_peaks (fun _ => ([], [])) (fun _ => (0, 0))
      (fun _ => 0) 0 (fun _ => 0) [] none rfl⟩

/-- The eigenvalues produced inside `params_to_dki_params` (dki.py) by
`decompose_tensor(from_lower_triangular(result[:6]), min_diffusivity)`.  The
eigen-decomposition (`dipy.reconst.dti`, not under src/) is abstracted as the
parameter `decompose` acting on the six lower-triangular elements. -/
def dki_fit_evals (decompose : (Fin 6 → ℝ) → (Fin 3 → ℝ) × (Fin 3 → Fin 3 → ℝ))
    (result : Fin 22 → ℝ) : Fin 3 → ℝ :=
  (decompose (fun i => result ⟨i.val, by have := i.isLt; omega⟩)).1

/-- The eigenvector matrix produced inside `params_to_dki_params` (dki.py)
by the abstracted eigen-decomposition. -/
def dki_fit_evecs (decompose : (Fin 6 → ℝ) → (Fin 3 → ℝ) × (Fin 3 → Fin 3 → ℝ))
    (result : Fin 22 → ℝ) : Fin 3 → Fin 3 → ℝ :=
  (decompose (fun i => result ⟨i.val, by have := i.isLt; omega⟩)).2

/-- `evals.mean(0)` in `params_to_dki_params` (dki.py): the mean diffusivity
of the decomposed (floor-clipped) eigenvalues. -/
def dki_fit_MD (decompose : (Fin 6 → ℝ) → (Fin 3 → ℝ) × (Fin 3 → Fin 3 → ℝ))
    (result : Fin 22 → ℝ) : ℝ :=
  (dki_fit_evals decompose result 0 + dki_fit_evals decompose result 1 +
    dki_fit_evals decompose result 2) / 3

/-- `params_to_dki_params(result, min_diffusivity)` (dki.py): pack the
22-element raw solution into `[evals(3), evecs(9; row-major), kurtosis(15),
S0(1)]`, where the kurtosis entries are `result[6:21] / MD_square` when
`MD_square` is truthy (nonzero) and `0.0 * result[6:21]` otherwise, and
`S0 = exp(-result[-1])`. -/
def params_to_dki_params
    (decompose : (Fin 6 → ℝ) → (Fin 3 → ℝ) × (Fin 3 → Fin 3 → ℝ))
    (result : Fin 22 → ℝ) : Fin 28 → ℝ := fun i =>
  let MD_square := (dki_fit_MD decompose result) ^ 2
  if h3 : i.val < 3 then dki_fit_evals decompose result ⟨i.val, h3⟩
  else if h12 : i.val < 12 then
    dki_fit_evecs decompose result ⟨(i.val - 3) / 3, by omega⟩
      ⟨(i.val - 3) % 3, by omega⟩
  else if h27 : i.val < 27 then
    if MD_square ≠ 0 then result ⟨6 + (i.val - 12), by omega⟩ / MD_square
    else 0 * result ⟨6 + (i.val - 12), by omega⟩
  else Real.exp (-(result 21))

/-- Claim C8: in `params_to_dki_params`, for every 22-element raw solution
and every behaviour of the external eigen-decomposition: if the mean of the
(floor-clipped) eigenvalues is exactly zero then all fifteen output kurtosis
coefficients are exactly zero, and otherwise each equals the raw entry
divided by the squared mean diffusivity; the division is reached only under
the nonzero guard. -/
theorem params_to_dki_params_kurtosis
    (decompose : (Fin 6 → ℝ) → (Fin 3 → ℝ) × (Fin 3 → Fin 3 → ℝ))
    (result : Fin 22 → ℝ) :
    (dki_fit_MD decompose result = 0 →
      ∀ m : Fin 15, params_to_dki_params decompose result
        ⟨12 + m.val, by have := m.isLt; omega⟩ = 0) ∧
    (dki_fit_MD decompose result ≠ 0 →
      ∀ m : Fin 15, params_to_dki_params decompose result
          ⟨12 + m.val, by have := m.isLt; omega⟩ =
        result ⟨6 + m.val, by have := m.isLt; omega⟩ /
          (dki_fit_MD decompose result) ^ 2) := by
  constructor <;> intro hMD m <;> have hm := m.isLt <;>
    simp only [params_to_dki_params] <;>
    rw [dif_neg (by omega), dif_neg (by omega), dif_pos (by omega)]
  · rw [if_neg (by simp [hMD]), zero_mul]
  · rw [if_pos (pow_ne_zero 2 hMD)]
    have harg : (⟨6 + (12 + m.val - 12), by omega⟩ : Fin 22) =
        ⟨6 + m.val, by omega⟩ := by
      apply Fin.ext
      show 6 + (12 + m.val - 12) = 6 + m.val
      omega
    rw [harg]

/-- Witness for C8 at a zero eigen-decomposition (mean diffusivity zero) and
the all-ones raw solution: the first kurtosis slot is zero. -/
theorem params_to_dki_params_kurtosis_witness :
    dki_fit_MD (fun _ => (fun _ => 0, fun _ _ => 0)) (fun _ => 1) = 0 ∧
      params_to_dki_params (fun _ => (fun _ => 0, fun _ _ => 0)) (fun _ => 1)
        ⟨12, by omega⟩ = 0 :=
  ⟨by unfold dki_fit_MD dki_fit_evals; norm_num,
    (params_to_dki_params_kurtosis (fun _ => (fun _ => 0, fun _ _ => 0))
      (fun _ => 1)).1
      (by unfold dki_fit_MD dki_fit_evals; norm_num) 0⟩

/-- `DiffusionKurtosisModel.iterative_fit(data_thres, mask=None, num_iter,
weights_method)` (dki.py), with the fitting internals abstracted:
`multi_fit` performs one `(C)WLS` fit for given weights and returns the fit
together with its leverages, `predict` produces the predicted signal of a
fit, and `weights_method` maps (data, prediction, leverages, round index,
total rounds, previous robust mask) to updated weights and robust mask.
A round count below 2 raises `ValueError("num_iter must be 2+")` before any
fitting; otherwise round 1 fits with the initial weights and rounds
`2..num_iter` reweight and refit, and the final fit is returned together
with the diagnostics entry holding the robust mask. -/
def iterative_fit {Data W P L R FitRes : Type}
    (multi_fit : Data → W → FitRes × L) (predict : FitRes → P)
    (weights_method : Data → P → L → ℤ → ℤ → Option R → W × Option R)
    (data_thres : Data) (w_init : W) (num_iter : ℤ) :
    Except String (FitRes × Option R) :=
  if num_iter < 2 then Except.error ("num_iter must be 2+")
  else
    let first := multi_fit data_thres w_init
    let final := (List.range' 2 (num_iter - 1).toNat).foldl
      (fun st rdx =>
        let pred := predict st.1.1
        let wr := weights_method data_thres pred st.1.2 (rdx : ℤ) num_iter st.2
        (multi_fit data_thres wr.1, wr.2))
      (first, (none : Option R))
    Except.ok (final.1.1, final.2)

/-- Claim C10: `iterative_fit` raises `ValueError` exactly on `num_iter < 2`
(before performing any fitting round), and for every `num_iter ≥ 2` and every
behaviour of the fitting internals it completes and returns a fit result
together with the diagnostics robust mask. -/
theorem iterative_fit_rounds {Data W P L R FitRes : Type}
    (multi_fit : Data → W → FitRes × L) (predict : FitRes → P)
    (weights_method : Data → P → L → ℤ → ℤ → Option R → W × Option R)
    (data_thres : Data) (w_init : W) (num_iter : ℤ) :
    (num_iter < 2 →
      iterative_fit multi_fit predict weights_method data_thres w_init
          num_iter =
        Except.error ("num_iter must be 2+")) ∧
    (2 ≤ num_iter →
      ∃ fit robust,
        iterative_fit multi_fit predict weights_method data_thres w_init
            num_iter =
          Except.ok (fit, robust)) := by
  constructor <;> intro h <;> unfold iterative_fit
  · rw [if_pos h]
  · rw [if_neg (not_lt.mpr h)]
    exact ⟨_, _, rfl⟩

/-- Witness for C10 with trivial fitting internals at `num_iter = 2`. -/
theorem iterative_fit_rounds_witness :
    (2 : ℤ) ≤ 2 ∧
      ∃ (fit : Unit) (robust : Option Unit),
        iterative_fit (fun _ _ => ((), ())) (fun _ => ())
            (fun _ _ _ _ _ _ => ((), some ())) () () 2 =
          Except.ok (fit, robust) :=
  ⟨by norm_num,
    (iterative_fit_rounds (fun _ _ => ((), ())) (fun _ => ())
      (fun _ _ _ _ _ _ => ((), some ())) () () 2).2 (by norm_num)⟩
